import Mathlib

/-!
Shallow embedding of the atlas projection and capybara scoring engine of the
s4m-api repository (file src/models/atlases.py).

Modelling conventions:
* A pandas DataFrame of expression values is modelled column-major over the
  rationals: `DF` stores the row labels (gene ids), the column labels
  (sample ids) and one list of rationals per column.  Storing columns rather
  than rows makes the per-column rank transform and the per-sample access used
  by the code direct; the transposed view `df.values.T` that the code feeds to
  the PCA is then exactly the `cols` field.
* The sample annotation table (string valued) is modelled by `DFS`.
* External numerical libraries are modelled by their documented semantics:
  - pandas `DataFrame.rank(axis=0, ascending=False, na_option="bottom")`
    (method "average") is `rankDesc` below;
  - `cvxopt.solvers.qp(P, q, G, h)` minimises (1/2) x^T P x + q^T x subject to
    G x <= h; with the G and h built in `Atlas.capybara` (G = [-I; 1^T],
    h = [0; 1]) the feasible set is `x >= 0 and sum x <= 1`, captured by
    `qpFeasible`, and the solver output is modelled relationally by
    `isQPMinimizer`;
  - `numpy.round(v, 6)` is round-half-to-even at 6 decimals, `round6`;
  - `sklearn.decomposition.PCA` is an abstract deterministic pair of functions
    (`PCAFns`) applied at the configuration recorded in `PCAConfig`;
  - `random.sample` is an abstract oracle (`Rng`); theorems that need its
    guarantees (distinct members of the population / permutation of the list)
    take them as hypotheses.
-/

/-- Insertion-ordered deduplication, the order `pandas.Series.unique` and
Python sets-as-used-here deliver membership for (order is first occurrence). -/
def uniqueInOrder (l : List String) : List String :=
  l.foldl (fun acc a => if a ∈ acc then acc else acc ++ [a]) []

/-- Dot product of two rational vectors. -/
def dotQ (a b : List ℚ) : ℚ := (List.zipWith (fun x y => x * y) a b).sum

/-- Position of the first occurrence of a label in a label list (the length of
the list when absent) -- the index arithmetic pandas label lookup resolves to.
Defined by structural recursion on propositional string equality so that it
evaluates by rewriting. -/
def idxOf (c : String) : List String → ℕ
  | [] => 0
  | a :: t => if a = c then 0 else idxOf c t + 1

/-- Column-major data frame of rationals: row labels, column labels, and one
value list per column. -/
structure DF where
  rowIndex : List String
  colIndex : List String
  cols : List (List ℚ)
deriving DecidableEq, Repr

/-- The empty data frame, `pandas.DataFrame()` in the code. -/
def DF.empty : DF := ⟨[], [], []⟩

/-- Column of a data frame by label (`df[c]`). -/
def DF.getCol (df : DF) (c : String) : List ℚ :=
  df.cols.getD (idxOf c df.colIndex) []

/-- Row of a data frame by position (`df.iloc[i]` across all columns). -/
def DF.row (df : DF) (i : ℕ) : List ℚ := df.cols.map (fun col => col.getD i 0)

/-- Entry of a data frame at row label `g` and column position `j`. -/
def DF.entryAt (df : DF) (g : String) (j : ℕ) : ℚ :=
  (df.cols.getD j []).getD (idxOf g df.rowIndex) 0

/-- Column assignment `df[c] = v`: replaces the column when the label exists,
appends a new column otherwise (pandas setitem semantics). -/
def DF.setCol (df : DF) (c : String) (v : List ℚ) : DF :=
  if c ∈ df.colIndex then
    ⟨df.rowIndex, df.colIndex, df.cols.set (idxOf c df.colIndex) v⟩
  else
    ⟨df.rowIndex, df.colIndex ++ [c], df.cols ++ [v]⟩

/-- Row selection by labels (`df.loc[idx]`); modelled for the call sites of the
code, where the requested labels are present in the frame (labels that are
absent are skipped rather than raising, a case no modelled call path hits). -/
def DF.selectRows (idx : List String) (df : DF) : DF :=
  let idx2 := idx.filter (fun g => g ∈ df.rowIndex)
  ⟨idx2, df.colIndex,
    df.cols.map (fun col => idx2.map (fun g => col.getD (idxOf g df.rowIndex) 0))⟩

/-- Column selection by labels (`df[cs]`). -/
def DF.selectCols (cs : List String) (df : DF) : DF :=
  ⟨df.rowIndex, cs, cs.map (fun c => DF.getCol df c)⟩

/-- Row-wise concatenation `pandas.concat([a, b])` of frames sharing columns. -/
def DF.concatRows (a b : DF) : DF :=
  ⟨a.rowIndex ++ b.rowIndex, a.colIndex, List.zipWith (fun x y => x ++ y) a.cols b.cols⟩

/-- Transpose (`df.transpose()`). -/
def DF.transposeDF (df : DF) : DF :=
  ⟨df.colIndex, df.rowIndex, (List.range df.rowIndex.length).map (fun i => DF.row df i)⟩

/-- The composite `queryData.reindex(df.index).fillna(0)` of `Atlas.projection`:
rows are relabelled onto `newIndex`; a label present in the query keeps its
values, a label absent from the query gets the fill value 0, and query rows
absent from `newIndex` are dropped.  (pandas `reindex` would raise on a
duplicated source index; the projection code only reaches this call after its
duplicate-index validation has passed.) -/
def reindexFill0 (newIndex : List String) (df : DF) : DF :=
  ⟨newIndex, df.colIndex,
    df.cols.map (fun col =>
      newIndex.map (fun g =>
        if g ∈ df.rowIndex then col.getD (idxOf g df.rowIndex) 0 else 0))⟩

/-- String-valued sample annotation table (`samples.tsv`), column-major. -/
structure DFS where
  rowIndex : List String
  colIndex : List String
  cols : List (List String)
deriving DecidableEq, Repr

/-- Column of the sample table by label. -/
def DFS.getCol (s : DFS) (c : String) : List String :=
  s.cols.getD (idxOf c s.colIndex) []

/-! ### Rank transform (`rankTransform` in atlases.py)

`df.rank(axis=0, ascending=False, na_option="bottom")` with the default
method "average": a present value receives the average of the descending
positions it would occupy (strictly greater values count before it, tied
values share the averaged block of positions), and missing values are placed
after every present value, sharing the averaged block at the bottom. -/

/-- Number of present entries of the column strictly greater than `v`. -/
def cntGT (col : List (Option ℚ)) (v : ℚ) : ℕ :=
  col.countP (fun o => match o with | some w => decide (v < w) | none => false)

/-- Number of present entries of the column equal to `v`. -/
def cntEQ (col : List (Option ℚ)) (v : ℚ) : ℕ :=
  col.countP (fun o => match o with | some w => decide (w = v) | none => false)

/-- Number of present (non missing) entries of the column. -/
def cntSome (col : List (Option ℚ)) : ℕ := col.countP (fun o => o.isSome)

/-- Number of missing entries of the column. -/
def cntNone (col : List (Option ℚ)) : ℕ := col.countP (fun o => o.isNone)

/-- Descending fractional rank of an entry within a column, ties averaged,
missing values ranked at the bottom. -/
def rankDesc (col : List (Option ℚ)) : Option ℚ → ℚ
  | some v => (cntGT col v : ℚ) + ((cntEQ col v : ℚ) + 1) / 2
  | none => (cntSome col : ℚ) + ((cntNone col : ℚ) + 1) / 2

/-- One column of `rankTransform`: value `(N - rank_desc + 1) / N` with `N` the
number of rows (source line:
`(df.shape[0] - df.rank(axis=0, ascending=False, na_option="bottom")+1)/df.shape[0]`). -/
def rankTransformCol (col : List (Option ℚ)) : List ℚ :=
  col.map (fun x => ((col.length : ℚ) - rankDesc col x + 1) / (col.length : ℚ))

/-- `rankTransformCol` on a column without missing values. -/
def rankTransformColQ (col : List ℚ) : List ℚ := rankTransformCol (col.map some)

/-- `rankTransform(df)`: the per-column rank transform applied to a frame. -/
def rankTransformDF (df : DF) : DF :=
  ⟨df.rowIndex, df.colIndex, df.cols.map rankTransformColQ⟩

/-! ### Rounding (`numpy.round(..., 6)`) -/

/-- Round half to even (the numpy rounding rule) of a rational to an integer. -/
def roundHalfToEven (q : ℚ) : ℤ :=
  if q - (⌊q⌋ : ℚ) < 1 / 2 then ⌊q⌋
  else if 1 / 2 < q - (⌊q⌋ : ℚ) then ⌊q⌋ + 1
  else if ⌊q⌋ % 2 = 0 then ⌊q⌋ else ⌊q⌋ + 1

/-- `numpy.round(q, 6)`. -/
def round6 (q : ℚ) : ℚ := (roundHalfToEven (q * 1000000) : ℚ) / 1000000

/-! ### Quadratic program semantics (`cvxopt.solvers.qp`)

`Atlas.capybara` builds `G = [-I; ones-row]` and `h = [0; 1]` (the commented
block marked "New code for Jarny" stacks the former equality row `A, b` onto
`G, h`), so the constraint system `G x <= h` passed to the solver is
`x >= 0` together with `sum x <= 1` -- the equality `sum x = 1` of the old
commented-out call `solvers.qp(P, q, G, h, A, b)` is NOT imposed. -/

/-- Feasibility for the constraint system passed to the solver:
all coordinates non-negative and the coordinate sum at most 1. -/
def qpFeasible (x : List ℚ) : Prop := (∀ v ∈ x, 0 ≤ v) ∧ x.sum ≤ 1

/-- Objective (1/2) x^T P x + q^T x of `cvxopt.solvers.qp`. -/
def qpObj (P : List (List ℚ)) (q : List ℚ) (x : List ℚ) : ℚ :=
  (1 / 2) * dotQ x (P.map (fun r => dotQ r x)) + dotQ q x

/-- The solver output modelled relationally: a feasible point of the right
dimension minimising the objective over the feasible points. -/
def isQPMinimizer (P : List (List ℚ)) (q : List ℚ) (x : List ℚ) : Prop :=
  x.length = q.length ∧ qpFeasible x ∧
    ∀ y, y.length = q.length → qpFeasible y → qpObj P q x ≤ qpObj P q y

/-! ### Capybara scoring (`Atlas.capybara`) -/

/-- `df.index.intersection(query.index)` after `df = df[samples.index]` and in
the subsequent `query.loc[...]` / `df.loc[...]`: the common gene labels in the
order of the atlas expression index. -/
def capyCommon (expr : DF) (query : DF) : List String :=
  expr.rowIndex.filter (fun g => g ∈ query.rowIndex)

/-- The query matrix as prepared by `Atlas.capybara`: restricted to the common
genes and (by default) rank transformed. -/
def capyQueryPrep (expr : DF) (query : DF) (rankNormalise : Bool) : DF :=
  let q := DF.selectRows (capyCommon expr query) query
  if rankNormalise then rankTransformDF q else q

/-- The atlas expression matrix as prepared by `Atlas.capybara`: columns
subset on the sample index, rows restricted to the common genes. -/
def capyDfPrep (expr : DF) (samples : DFS) (query : DF) : DF :=
  DF.selectRows (capyCommon expr query) (DF.selectCols samples.rowIndex expr)

/-- `anno.unique()` for a sample annotation column: distinct values in order
of first appearance. -/
def categoriesOf (samples : DFS) (c : String) : List String :=
  uniqueInOrder (DFS.getCol samples c)

/-- The reference matrix for one annotation column: one row per category,
holding for every common gene the mean expression over the atlas samples
annotated with that category
(`reference.loc[i_celltype,:] = df.loc[:,anno==i_celltype].mean(axis=1)`). -/
def referenceMatrix (df : DF) (samples : DFS) (c : String) : List (List ℚ) :=
  (categoriesOf samples c).map (fun cat =>
    let sel := (samples.rowIndex.zip (DFS.getCol samples c)).filterMap
      (fun p => if p.2 = cat then some p.1 else none)
    (List.range df.rowIndex.length).map (fun gi =>
      let vals := sel.map (fun s => (DF.getCol df s).getD gi 0)
      vals.sum / (vals.length : ℚ)))

/-- `P = reference.dot(reference.transpose())`: the Gram matrix. -/
def gramMatrix (R : List (List ℚ)) : List (List ℚ) :=
  R.map (fun ri => R.map (fun rj => dotQ ri rj))

/-- `q = reference.values @ (-y)` for a query sample vector `y`. -/
def capyQvec (R : List (List ℚ)) (y : List ℚ) : List ℚ :=
  R.map (fun r => -(dotQ r y))

/-- Query sample vector number `j` (column `j` of the prepared query). -/
def DF.colAt (df : DF) (j : ℕ) : List ℚ := df.cols.getD j []

/-- One reported capybara score table for annotation column `c`: query samples
as rows, categories as columns; every row is `numpy.round(solution, 6)` of a
solver output for the quadratic program of that sample. -/
def isCapyTable (expr : DF) (samples : DFS) (query : DF) (c : String) (tbl : DF) : Prop :=
  tbl.rowIndex = (capyQueryPrep expr query true).colIndex ∧
  tbl.colIndex = categoriesOf samples c ∧
  tbl.cols.length = tbl.colIndex.length ∧
  (∀ col ∈ tbl.cols, col.length = (capyQueryPrep expr query true).colIndex.length) ∧
  ∀ j, j < (capyQueryPrep expr query true).colIndex.length →
    ∃ x, isQPMinimizer
      (gramMatrix (referenceMatrix (capyDfPrep expr samples query) samples c))
      (capyQvec (referenceMatrix (capyDfPrep expr samples query) samples c)
        (DF.colAt (capyQueryPrep expr query true) j)) x ∧
      DF.row tbl j = x.map round6

/-- The full result of `Atlas.capybara` with `rankNormalise=True`: one score
table per sample annotation column, keyed by that column. -/
def capybaraRel (expr : DF) (samples : DFS) (query : DF) (res : List (String × DF)) : Prop :=
  res.map Prod.fst = samples.colIndex ∧
  ∀ p ∈ res, isCapyTable expr samples query p.1 p.2

/-! ### Projection (`Atlas.projection`) -/

/-- Atlas data used by `Atlas.projection`: the filtered expression matrix
(`expression.filtered.tsv`) and the gene table (`genes.tsv`) with its
`inclusion` flag. -/
structure AtlasData where
  expr : DF
  genes : List (String × Bool)
deriving DecidableEq, Repr

/-- Error string of the zero-rows validation check. -/
def zeroRowsMsg : String :=
  "Data to project appears to have 0 rows. Check format of the file."

/-- Error string of the duplicate-index validation check. -/
def dupIndexMsg : String :=
  "This expression data contain duplicate index. Please remove these first."

/-- Error string of the zero-common-genes validation check. -/
def noCommonMsg : String :=
  "No genes common between query data and atlas, likely due to row ids not being Ensembl ids."

/-- Error string of the low-overlap validation check, carrying the common-gene
count. -/
def lowOverlapMsg (n : ℕ) : String :=
  "Less than 50% of genes in query data are common with atlas (" ++ toString n ++
    " common). This may lead to an unreliable result."

/-- `queryData.index.intersection(df.index)` of `Atlas.projection`: common
gene labels, without duplicates, in query order. -/
def commonGenes (atlasExpr : DF) (query : DF) : List String :=
  uniqueInOrder (query.rowIndex.filter (fun g => g ∈ atlasExpr.rowIndex))

/-- Number of genes with the `inclusion` flag (`genes[genes["inclusion"]]`). -/
def inclusionCount (genes : List (String × Bool)) : ℕ :=
  (genes.filter (fun g => g.2)).length

/-- The validation sequence of `Atlas.projection`, faithfully: each check is a
separate `if` statement that ASSIGNS `result["error"]`, so a later failing
check overwrites the message of an earlier one; the zero-common and
low-overlap checks alone form an if/elif pair. -/
def projectionErrorMsg (atlas : AtlasData) (query : DF) : String :=
  let e1 := if query.rowIndex.length = 0 then zeroRowsMsg else ""
  let common := commonGenes atlas.expr query
  let e2 := if query.rowIndex.length ≠ (uniqueInOrder query.rowIndex).length
            then dupIndexMsg else e1
  if common.length = 0 then noCommonMsg
  else if (common.length : ℚ) / (inclusionCount atlas.genes : ℚ) < 1 / 2 then
    lowOverlapMsg common.length
  else e2

/-- The `svd_solver` argument of `sklearn.decomposition.PCA`. -/
inductive SvdSolver where
  | auto | full | arpack | randomized
deriving DecidableEq, Repr

/-- Constructor arguments of `sklearn.decomposition.PCA`. -/
structure PCAConfig where
  nComponents : ℕ
  solver : SvdSolver
deriving DecidableEq, Repr

/-- The configuration `PCA(n_components=10, svd_solver="full")` used by
`Atlas.projection`. -/
def projectionPCAConfig : PCAConfig := ⟨10, SvdSolver.full⟩

/-- Abstract deterministic PCA: `fitTransform cfg a` is
`PCA(cfg).fit_transform(a)` and `transform cfg a b` is the `transform(b)` of
the model fitted on `a`.  Data crosses this interface in the sample-major
layout (`values.T`), i.e. as the `cols` field of a `DF`; outputs are
component-major (one list per output dimension). -/
structure PCAFns where
  fitTransform : PCAConfig → List (List ℚ) → List (List ℚ)
  transform : PCAConfig → List (List ℚ) → List (List ℚ) → List (List ℚ)

/-- Abstract source of randomness standing for the `random` module:
`sampleCols pop n` models `random.sample(pop, n)` (n distinct members of pop)
and `shuffle i l` models the i-th call `random.sample(l, len(l))`
(a permutation of l).  The guarantees are taken as hypotheses where needed. -/
structure Rng where
  sampleCols : List String → ℕ → List String
  shuffle : ℕ → List ℚ → List ℚ

/-- Name of the i-th appended random column (`f"random_{i}"`). -/
def randName (i : ℕ) : String := "random_" ++ toString i

/-- The random-columns block of `Atlas.projection`: choose
`n = 3 if len(cols) > 2 else len(cols)` distinct columns, then for each chosen
column append (or, when the name already exists, overwrite) a column
`random_i` holding a shuffle of the current values of the chosen column. -/
def addRandomCols (rng : Rng) (df : DF) : DF :=
  let n := if 2 < df.colIndex.length then 3 else df.colIndex.length
  let chosen := rng.sampleCols df.colIndex n
  (chosen.enum).foldl
    (fun d p => DF.setCol d (randName p.1) (rng.shuffle p.1 (DF.getCol d p.2))) df

/-- The `max` of a column as used by the capybara cutoff (columns at the call
site are non-empty). -/
def listMax (l : List ℚ) : ℚ := l.foldr max (l.headD 0)

/-- The columns the capybara cutoff loop of `Atlas.projection` intends to
keep: those whose maximum score exceeds the cutoff. -/
def keptColumns (cutoff : ℚ) (tbl : DF) : List String :=
  tbl.colIndex.filter (fun c => cutoff < listMax (DF.getCol tbl c))

/-- The capybara post-processing loop of `Atlas.projection`:
` for column,df in capy.items(): df = df[[col for col in df.columns if df[col].max()>cutoff]] `
computes `DF.selectCols (keptColumns cutoff tbl) tbl` for each table but binds
the result to the loop-local name `df` and never writes it back into `capy`;
the dictionary stored into the result is therefore the input, unchanged. -/
def capybaraPostProcess (capy : List (String × DF)) : List (String × DF) := capy

/-- Result dictionary of `Atlas.projection`. -/
structure ProjResult where
  error : String
  coords : DF
  name : String
  combinedCoords : DF
  capybara : Option (List (String × DF))
deriving DecidableEq, Repr

/-- `Atlas.projection`, with the external collaborators (PCA, randomness, and
the bound method `self.capybara`) as explicit functional parameters.  The
mutation `projectedCoords.index = [f"{name}_{item}" ...]` in the source acts
on the very object stored under `result["coords"]`, so under
`includeCombinedCoords` the returned `coords` itself carries the prefixed
index. -/
def projection (pca : PCAFns) (rng : Rng) (capyFn : DF → List (String × DF))
    (atlas : AtlasData) (name : String) (queryData : DF)
    (includeCombinedCoords includeCapybara includeRandomSamples : Bool) : ProjResult :=
  let err := projectionErrorMsg atlas queryData
  if err ≠ "" then ⟨err, DF.empty, name, DF.empty, none⟩
  else
    let df := atlas.expr
    let dfQuery0 := rankTransformDF (reindexFill0 df.rowIndex queryData)
    let dfQuery := if includeRandomSamples then addRandomCols rng dfQuery0 else dfQuery0
    let aOut := pca.fitTransform projectionPCAConfig df.cols
    let atlasCoords : DF := ⟨df.colIndex, (List.range aOut.length).map toString, aOut⟩
    let qOut := (pca.transform projectionPCAConfig df.cols dfQuery.cols).take 3
    let coordsRaw : DF := ⟨dfQuery.colIndex, (List.range qOut.length).map toString, qOut⟩
    let capy := if includeCapybara
                then some (capybaraPostProcess (capyFn queryData)) else none
    if includeCombinedCoords then
      let projected : DF :=
        ⟨coordsRaw.rowIndex.map (fun s => name ++ "_" ++ s), coordsRaw.colIndex, coordsRaw.cols⟩
      let atlas3 : DF := ⟨atlasCoords.rowIndex, projected.colIndex, atlasCoords.cols.take 3⟩
      ⟨"", projected, name, DF.concatRows atlas3 projected, capy⟩
    else ⟨"", coordsRaw, name, DF.empty, capy⟩

/-! ### Heatmap data (`Atlas.heatmapData`) -/

/-- Atlas data used by `Atlas.heatmapData`: gene table rows are
(ensembl id, inclusion flag, symbol); `ordering` is the ordering dictionary of
`colours.json`. -/
structure HeatmapAtlas where
  geneInfo : List (String × Bool × String)
  expr : DF
  samples : DFS
  ordering : List (String × List String)
deriving DecidableEq, Repr

/-- Result of `Atlas.heatmapData`: the empty dictionary, the
not-enough-samples error dictionary, or the full result
(filtered, unfiltered, notFound, geneSymbols, dataframe). -/
inductive HeatmapResult where
  | emptyRes : HeatmapResult
  | errRes : String → HeatmapResult
  | okRes : List String → List String → List String → List String → DF → HeatmapResult
deriving DecidableEq, Repr

/-- The test `geneIds[0].startswith("ENS")` of `Atlas.heatmapData`, written
as a character-list prefix check so that it evaluates by reduction. -/
def startsWithENS (s : String) : Bool := "ENS".data.isPrefixOf s.data

/-- Gene ids after the symbol conversion step of `Atlas.heatmapData`: ids are
kept when the first entry starts with "ENS", otherwise the input is treated as
symbols and mapped to the ids whose symbol is listed. -/
def heatmapGeneIds (geneInfo : List (String × Bool × String)) (geneIds0 : List String) : List String :=
  if startsWithENS (geneIds0.headD "") then geneIds0
  else (geneInfo.filter (fun g => g.2.2 ∈ geneIds0)).map (fun g => g.1)

/-- Ids of genes carrying the inclusion flag. -/
def inclusionIds (geneInfo : List (String × Bool × String)) : List String :=
  (geneInfo.filter (fun g => g.2.1)).map (fun g => g.1)

/-- Ids of genes known to the atlas but without the inclusion flag. -/
def exclusionIds (geneInfo : List (String × Bool × String)) : List String :=
  (geneInfo.filter (fun g => ¬g.2.1)).map (fun g => g.1)

/-- The filtered-included part of the requested genes. -/
def heatmapFiltered (atlas : HeatmapAtlas) (geneIds0 : List String) : List String :=
  uniqueInOrder ((heatmapGeneIds atlas.geneInfo geneIds0).filter
    (fun g => g ∈ inclusionIds atlas.geneInfo))

/-- The filtered-excluded (unfiltered) part of the requested genes. -/
def heatmapUnfiltered (atlas : HeatmapAtlas) (geneIds0 : List String) : List String :=
  uniqueInOrder ((heatmapGeneIds atlas.geneInfo geneIds0).filter
    (fun g => g ∈ exclusionIds atlas.geneInfo))

/-- The not-found part of the requested genes. -/
def heatmapNotFound (atlas : HeatmapAtlas) (geneIds0 : List String) : List String :=
  uniqueInOrder ((heatmapGeneIds atlas.geneInfo geneIds0).filter
    (fun g => ¬g ∈ inclusionIds atlas.geneInfo ∧ ¬g ∈ exclusionIds atlas.geneInfo))

/-- Subtract the row mean (`df.sub(df.mean(axis=1), axis=0)`). -/
def subRowMean (df : DF) : DF :=
  let means := (List.range df.rowIndex.length).map
    (fun i => (DF.row df i).sum / (df.colIndex.length : ℚ))
  ⟨df.rowIndex, df.colIndex, df.cols.map (fun col => List.zipWith (fun x y => x - y) col means)⟩

/-- Apply a row-wise transform (`df.apply(f, axis=1)`), rebuilding the
column-major storage. -/
def applyRows (f : List ℚ → List ℚ) (df : DF) : DF :=
  let newRows := (List.range df.rowIndex.length).map (fun i => f (DF.row df i))
  ⟨df.rowIndex, df.colIndex,
    (List.range df.colIndex.length).map (fun j => newRows.map (fun r => r.getD j 0))⟩

/-- Subtract a designated reference column (`df.sub(df[relativeValue], axis=0)`). -/
def subColumn (df : DF) (c : String) : DF :=
  let ref := DF.getCol df c
  ⟨df.rowIndex, df.colIndex, df.cols.map (fun col => List.zipWith (fun x y => x - y) col ref)⟩

/-- Mean of sample columns grouped by an annotation column
(`df[samples.index].groupby(samples[groupby], axis=1).mean()`).  (pandas
sorts the group keys; the claims checked here do not depend on the group
order, which is modelled as first appearance.) -/
def groupByMean (df : DF) (samples : DFS) (rows : List String) (gb : String) : DF :=
  let anno := fun s =>
    (DFS.getCol samples gb).getD (idxOf s samples.rowIndex) ""
  let cats := uniqueInOrder (rows.map anno)
  ⟨df.rowIndex, cats, cats.map (fun cat =>
    let sel := rows.filter (fun s => anno s = cat)
    (List.range df.rowIndex.length).map (fun gi =>
      (sel.map (fun s => (DF.getCol df s).getD gi 0)).sum / (sel.length : ℚ)))⟩

/-- Symbol of a gene id from the gene table, falling back to the id. -/
def symbolOf (geneInfo : List (String × Bool × String)) (g : String) : String :=
  ((geneInfo.find? (fun p => p.1 = g)).map (fun p => p.2.2)).getD g

/-- `Atlas.heatmapData`, with the hierarchical-clustering order (`hcl`, for
`hclusteredRows`) and the scipy `zscore` row transform (`zfn`) as abstract
functional parameters. -/
def heatmapData (hcl : DF → List String) (zfn : List ℚ → List ℚ)
    (atlas : HeatmapAtlas) (geneIds0 : List String) (clusterColumns : Bool)
    (groupby subsetby : Option String) (subsetbyItem : String)
    (relativeValue : String) : HeatmapResult :=
  if geneIds0.length = 0 then .emptyRes
  else
    let filtered := heatmapFiltered atlas geneIds0
    let df0 := DF.selectRows filtered atlas.expr
    let sampleRows := match subsetby with
      | some sb => (atlas.samples.rowIndex.zip (DFS.getCol atlas.samples sb)).filterMap
          (fun p => if p.2 = subsetbyItem then some p.1 else none)
      | none => atlas.samples.rowIndex
    let df1 := match subsetby with
      | some _ => DF.selectCols sampleRows df0
      | none => df0
    let df2 := match groupby with
      | some gb => groupByMean df1 atlas.samples sampleRows gb
      | none => df1
    if df2.colIndex.length ≤ 1 then .errRes "Not enough samples to render a heatmap."
    else
      let df3 := if relativeValue = "rowAverage" then subRowMean df2
        else if relativeValue = "zscore" then applyRows zfn df2
        else if relativeValue ∈ df2.colIndex then subColumn df2 relativeValue
        else df2
      let df4 := if clusterColumns then DF.selectCols (hcl (DF.transposeDF df3)) df3
        else match groupby with
          | some gb =>
            match atlas.ordering.find? (fun p => p.1 = gb) with
            | some p => DF.selectCols p.2 df3
            | none => df3
          | none => df3
      let df5 := if relativeValue ∈ df4.colIndex
        then DF.selectCols ([relativeValue] ++ df4.colIndex.filter (fun c => c ≠ relativeValue)) df4
        else df4
      let geneSymbols := df5.rowIndex.map (fun g => symbolOf atlas.geneInfo g)
      .okRes filtered (heatmapUnfiltered atlas geneIds0) (heatmapNotFound atlas geneIds0)
        geneSymbols df5

/-! ### Concrete instances used to evaluate the embedding -/

/-- A trivial PCA stand-in (the coordinate values are irrelevant to the
index-level facts evaluated on it). -/
def pca0 : PCAFns := ⟨fun _ _ => [], fun _ _ _ => []⟩

/-- A concrete admissible randomness oracle: `sampleCols` takes the first n
population members (n distinct members), `shuffle` is the identity
permutation. -/
def rng0 : Rng := ⟨fun pop n => pop.take n, fun _ l => l⟩

/-- A trivial capybara stand-in returning no tables. -/
def capyFn0 : DF → List (String × DF) := fun _ => []

/-- One-gene atlas: gene g1 (included), samples s1 and s2 with expression 2. -/
def atlasA : AtlasData := ⟨⟨["g1"], ["s1", "s2"], [[2], [2]]⟩, [("g1", true)]⟩

/-- One-gene, one-sample query matrix (gene g1, sample q1, value 5). -/
def queryOne : DF := ⟨["g1"], ["q1"], [[5]]⟩

/-- A query matrix with zero rows. -/
def queryEmpty : DF := ⟨[], [], []⟩

/-- Expression matrix of the one-gene capybara example. -/
def exprC1 : DF := ⟨["g1"], ["s1", "s2"], [[2], [2]]⟩

/-- Sample table of the one-gene capybara example: a single annotation column
ct whose only category is A. -/
def samplesC1 : DFS := ⟨["s1", "s2"], ["ct"], [["A", "A"]]⟩

/-- The unique capybara score table of the one-gene example. -/
def tblC1 : DF := ⟨["q1"], ["A"], [[1 / 2]]⟩

/-- The capybara result of the one-gene example. -/
def resC1 : List (String × DF) := [("ct", tblC1)]

/-- A capybara score table with a category (B) whose maximum score 0.004 lies
below the 0.01 cutoff. -/
def tblC3 : DF := ⟨["q1"], ["A", "B"], [[996 / 1000], [4 / 1000]]⟩

/-- A capybara oracle returning `tblC3` for one annotation column. -/
def capyFnC3 : DF → List (String × DF) := fun _ => [("ct", tblC3)]

/-- One-gene atlas whose single sample is named t_q1. -/
def atlasB : AtlasData := ⟨⟨["g1"], ["t_q1"], [[2]]⟩, [("g1", true)]⟩

/-- A query whose first sample column is named random_0, colliding with the
name generated for the first appended random column. -/
def queryCollide : DF := ⟨["g1"], ["random_0", "s1"], [[1], [2]]⟩

/-- One-gene atlas whose single sample has the underscore-free name a, so no
prefixed query identifier can collide with it. -/
def atlasW : AtlasData := ⟨⟨["g1"], ["a"], [[2]]⟩, [("g1", true)]⟩

/-- Heatmap atlas with one included gene (ENSG1, in the filtered matrix) and
one known but not included gene (ENSG2), two samples. -/
def atlasH0 : HeatmapAtlas :=
  ⟨[("ENSG1", true, "A"), ("ENSG2", false, "B")],
   ⟨["ENSG1"], ["s1", "s2"], [[1], [2]]⟩, ⟨["s1", "s2"], [], []⟩, []⟩

/-- The same heatmap atlas with a single sample column. -/
def atlasH1 : HeatmapAtlas :=
  ⟨[("ENSG1", true, "A"), ("ENSG2", false, "B")],
   ⟨["ENSG1"], ["s1"], [[1]]⟩, ⟨["s1"], [], []⟩, []⟩

/-! ## Helper lemmas -/

theorem roundHalfToEven_nonneg (q : ℚ) (h : 0 ≤ q) : 0 ≤ roundHalfToEven q := by
  have h0 : (0 : ℤ) ≤ ⌊q⌋ := Int.floor_nonneg.mpr h
  unfold roundHalfToEven
  split_ifs <;> omega

theorem roundHalfToEven_le_add_half (q : ℚ) : (roundHalfToEven q : ℚ) ≤ q + 1 / 2 := by
  have h1 : (⌊q⌋ : ℚ) ≤ q := Int.floor_le q
  unfold roundHalfToEven
  split_ifs with ha hb hc
  · linarith
  · push_cast
    linarith
  · linarith
  · push_cast
    push_neg at ha hb
    linarith

theorem round6_nonneg (q : ℚ) (h : 0 ≤ q) : 0 ≤ round6 q := by
  unfold round6
  apply div_nonneg _ (by norm_num)
  exact_mod_cast roundHalfToEven_nonneg _ (by positivity)

theorem round6_le_add (q : ℚ) : round6 q ≤ q + 1 / 2000000 := by
  unfold round6
  rw [div_le_iff₀ (show (0 : ℚ) < 1000000 by norm_num)]
  calc (roundHalfToEven (q * 1000000) : ℚ) ≤ q * 1000000 + 1 / 2 :=
        roundHalfToEven_le_add_half _
    _ = (q + 1 / 2000000) * 1000000 := by ring

theorem sum_map_round6_le (x : List ℚ) :
    (x.map round6).sum ≤ x.sum + (x.length : ℚ) / 2000000 := by
  induction x with
  | nil => simp
  | cons a t ih =>
    simp only [List.map_cons, List.sum_cons, List.length_cons]
    push_cast
    have := round6_le_add a
    linarith

theorem qpFeasible_half : qpFeasible [(1 : ℚ) / 2] := by
  constructor
  · intro v hv
    simp only [List.mem_singleton] at hv
    subst hv
    norm_num
  · norm_num [List.sum_cons]

theorem qpObj_single (a : ℚ) : qpObj [[(4 : ℚ)]] [-2] [a] = 2 * a ^ 2 - 2 * a := by
  simp [qpObj, dotQ]
  ring

theorem qpHalf_isMin : isQPMinimizer [[(4 : ℚ)]] [-2] [1 / 2] := by
  refine ⟨rfl, qpFeasible_half, ?_⟩
  intro y hy hfy
  simp only [List.length_singleton] at hy
  obtain ⟨a, rfl⟩ := List.length_eq_one.mp hy
  rw [qpObj_single, qpObj_single]
  nlinarith [sq_nonneg (a - 1 / 2)]

theorem qpHalf_unique (x : List ℚ) (hx : isQPMinimizer [[(4 : ℚ)]] [-2] x) :
    x = [1 / 2] := by
  obtain ⟨hlen, hfeas, hmin⟩ := hx
  simp only [List.length_singleton] at hlen
  obtain ⟨a, rfl⟩ := List.length_eq_one.mp hlen
  have h := hmin [1 / 2] rfl qpFeasible_half
  rw [qpObj_single, qpObj_single] at h
  have ha : a = 1 / 2 := by nlinarith [sq_nonneg (a - 1 / 2)]
  rw [ha]

theorem round6_half : round6 (1 / 2) = 1 / 2 := by
  norm_num [round6, roundHalfToEven]

theorem capyC1_reference :
    referenceMatrix (capyDfPrep exprC1 samplesC1 queryOne) samplesC1 "ct" = [[(2 : ℚ)]] := by
  simp [referenceMatrix, capyDfPrep, capyCommon, categoriesOf, uniqueInOrder,
    DF.selectRows, DF.selectCols, DF.getCol, DFS.getCol, idxOf, List.zip,
    List.filterMap_cons, List.range_succ, exprC1, samplesC1, queryOne]

theorem capyC1_gram :
    gramMatrix (referenceMatrix (capyDfPrep exprC1 samplesC1 queryOne) samplesC1 "ct")
      = [[(4 : ℚ)]] := by
  rw [capyC1_reference]
  simp [gramMatrix, dotQ]
  norm_num

theorem capyC1_query : capyQueryPrep exprC1 queryOne true = ⟨["g1"], ["q1"], [[1]]⟩ := by
  simp [capyQueryPrep, capyCommon, DF.selectRows, rankTransformDF, rankTransformColQ,
    rankTransformCol, rankDesc, cntGT, cntEQ, idxOf, exprC1, queryOne, List.countP_cons,
    List.countP_nil]

theorem capyC1_qvec :
    capyQvec (referenceMatrix (capyDfPrep exprC1 samplesC1 queryOne) samplesC1 "ct")
      (DF.colAt (capyQueryPrep exprC1 queryOne true) 0) = [(-2 : ℚ)] := by
  rw [capyC1_reference, capyC1_query]
  simp [capyQvec, DF.colAt, dotQ]

theorem capyC1_rel : capybaraRel exprC1 samplesC1 queryOne resC1 := by
  constructor
  · rfl
  · intro p hp
    simp only [resC1, List.mem_singleton] at hp
    subst hp
    refine ⟨by simp [capyC1_query, tblC1], by decide, by decide, ?_, ?_⟩
    · rw [capyC1_query]
      decide
    intro j hj
    rw [capyC1_query] at hj
    simp only [List.length_singleton] at hj
    have hj0 : j = 0 := by omega
    subst hj0
    refine ⟨[1 / 2], ?_, ?_⟩
    · rw [capyC1_gram, capyC1_qvec]
      exact qpHalf_isMin
    · simp only [tblC1, DF.row, List.map_cons, List.map_nil, List.getD_cons_zero, round6_half]

/-! ## Claim theorems -/

/-- Claim C1, amended: for every query matrix and every categorical column of
the atlas sample annotation, every entry of each reported capybara score row
is at least -1e-6 (the solver feasibility gives non-negativity, preserved by
the 6-decimal rounding), and each row SUM is at most 1 + k/2e6 (k the number
of categories).  The row sum is NOT guaranteed to be close to 1: the code
folds the former equality row into the inequality system, so the solver is
only constrained by sum x <= 1. -/
theorem capybara_rows_nonneg_sum_at_most_one
    (expr : DF) (samples : DFS) (query : DF) (res : List (String × DF))
    (hres : capybaraRel expr samples query res) :
    ∀ p ∈ res, ∀ i, i < p.2.rowIndex.length →
      (∀ v ∈ DF.row p.2 i, -(1 / 1000000 : ℚ) ≤ v) ∧
      (DF.row p.2 i).sum ≤ 1 + ((DF.row p.2 i).length : ℚ) / 2000000 := by
  intro p hp i hi
  obtain ⟨-, htbl⟩ := hres
  obtain ⟨hrow, -, -, -, hqp⟩ := htbl p hp
  rw [hrow] at hi
  obtain ⟨x, hmin, hx⟩ := hqp i hi
  obtain ⟨-, ⟨hpos, hsum⟩, -⟩ := hmin
  constructor
  · intro v hv
    rw [hx] at hv
    obtain ⟨u, hu, rfl⟩ := List.mem_map.mp hv
    have h0 := round6_nonneg u (hpos u hu)
    linarith
  · rw [hx, List.length_map]
    have h1 := sum_map_round6_le x
    linarith

/-- Witness for `capybara_rows_nonneg_sum_at_most_one` at the concrete
one-gene, one-category instance. -/
theorem capybara_rows_nonneg_sum_at_most_one_witness :
    (∀ v ∈ DF.row tblC1 0, -(1 / 1000000 : ℚ) ≤ v) ∧
    (DF.row tblC1 0).sum ≤ 1 + ((DF.row tblC1 0).length : ℚ) / 2000000 :=
  capybara_rows_nonneg_sum_at_most_one exprC1 samplesC1 queryOne resC1 capyC1_rel
    ("ct", tblC1) (by simp [resC1]) 0 (by decide)

/-- Claim C1 as stated is false on the code: for the one-gene atlas with a
single category of mean expression 2 and the one-sample query, EVERY solver
output admitted by the embedded program semantics yields the score row [1/2],
whose sum 1/2 violates the claimed tolerance |sum - 1| < 1e-4 (while resC1
witnesses that this row is indeed reachable). -/
theorem capybara_row_sum_below_tolerance :
    capybaraRel exprC1 samplesC1 queryOne resC1 ∧
    (∀ res, capybaraRel exprC1 samplesC1 queryOne res →
      ∀ p ∈ res, DF.row p.2 0 = [(1 / 2 : ℚ)]) ∧
    ¬(|([(1 / 2 : ℚ)]).sum - 1| < 1 / 10000) := by
  refine ⟨capyC1_rel, ?_, ?_⟩
  · intro res hres p hp
    obtain ⟨hfst, htbl⟩ := hres
    have hc : p.1 = "ct" := by
      have h1 : p.1 ∈ res.map Prod.fst := List.mem_map_of_mem Prod.fst hp
      rw [hfst] at h1
      simpa [samplesC1] using h1
    have ht := htbl p hp
    rw [hc] at ht
    obtain ⟨-, -, -, -, hqp⟩ := ht
    obtain ⟨x, hmin, hx⟩ := hqp 0 (by rw [capyC1_query]; decide)
    rw [capyC1_gram, capyC1_qvec] at hmin
    have hxv := qpHalf_unique x hmin
    rw [hx, hxv]
    simp only [List.map_cons, List.map_nil, round6_half]
  · have hs : ([(1 / 2 : ℚ)]).sum = 1 / 2 := by simp
    rw [hs]
    rw [show |(1 / 2 : ℚ) - 1| = 1 / 2 by rw [abs_sub_comm]; rw [abs_of_nonneg] <;> norm_num]
    norm_num

/-- Claim C2 as stated is false on the code: a query with zero rows also has
zero common genes, and the later zero-common-genes check OVERWRITES the
zero-rows message, so the returned error is the no-common-genes message, not
the zero-rows message the claimed first-failing-wins order would produce. -/
theorem projection_zero_rows_reports_no_common_genes :
    projectionErrorMsg atlasA queryEmpty = noCommonMsg ∧
    noCommonMsg ≠ zeroRowsMsg ∧
    (projection pca0 rng0 capyFn0 atlasA "test" queryEmpty true true true).error
      = noCommonMsg := by
  refine ⟨rfl, by decide, rfl⟩

/-- Claim C2, amended: the four validation checks are applied as a sequence of
assignments to the error field, so the message of the LAST failing check wins
(priority order: zero-common, low-overlap, duplicate-index, zero-rows); in
particular a zero-row query receives the zero-common-genes message.  For every
failing query the function still returns a result object with that non-empty
error, empty coordinate frames and no capybara entry -- no exception, and no
projection computation. -/
theorem projection_validation_sequence
    (atlas : AtlasData) (query : DF) (pca : PCAFns) (rng : Rng)
    (capyFn : DF → List (String × DF)) (name : String) (icc icap irs : Bool) :
    (projectionErrorMsg atlas query =
      (if (commonGenes atlas.expr query).length = 0 then noCommonMsg
       else if ((commonGenes atlas.expr query).length : ℚ)
           / (inclusionCount atlas.genes : ℚ) < 1 / 2
         then lowOverlapMsg (commonGenes atlas.expr query).length
       else if query.rowIndex.length ≠ (uniqueInOrder query.rowIndex).length
         then dupIndexMsg
       else if query.rowIndex.length = 0 then zeroRowsMsg
       else "")) ∧
    (query.rowIndex.length = 0 → projectionErrorMsg atlas query = noCommonMsg) ∧
    (projectionErrorMsg atlas query ≠ "" →
      projection pca rng capyFn atlas name query icc icap irs =
        ⟨projectionErrorMsg atlas query, DF.empty, name, DF.empty, none⟩) := by
  refine ⟨rfl, ?_, ?_⟩
  · intro h0
    have hq : query.rowIndex = [] := List.length_eq_zero.mp h0
    simp [projectionErrorMsg, commonGenes, uniqueInOrder, hq]
  · intro hne
    simp only [projection]
    rw [if_pos hne]

/-- Witness for `projection_validation_sequence`: at the zero-row query the
extracted conclusions hold concretely. -/
theorem projection_validation_sequence_witness :
    projectionErrorMsg atlasA queryEmpty = noCommonMsg ∧
    projection pca0 rng0 capyFn0 atlasA "w" queryEmpty false false false =
      ⟨projectionErrorMsg atlasA queryEmpty, DF.empty, "w", DF.empty, none⟩ :=
  ⟨(projection_validation_sequence atlasA queryEmpty pca0 rng0 capyFn0 "w"
      false false false).2.1 (by decide),
   (projection_validation_sequence atlasA queryEmpty pca0 rng0 capyFn0 "w"
      false false false).2.2 (by decide)⟩

theorem atlasA_queryOne_valid : projectionErrorMsg atlasA queryOne = "" := by
  simp [projectionErrorMsg, commonGenes, uniqueInOrder, inclusionCount, atlasA, queryOne]
  intro h
  norm_num at h

/-- Claim C3 is right and the code is wrong (code bug): the cutoff loop of
`Atlas.projection` rebinds its loop variable instead of updating the
dictionary, so no category is ever dropped: the reported capybara table still
contains category B although its maximum score 0.004 is below the 0.01
cutoff; `keptColumns` shows the selection the loop computes and discards. -/
theorem capybara_low_category_not_dropped :
    (projection pca0 rng0 capyFnC3 atlasA "t" queryOne false true false).capybara
        = some [("ct", tblC3)] ∧
    "B" ∈ tblC3.colIndex ∧
    listMax (DF.getCol tblC3 "B") < 1 / 100 ∧
    keptColumns (1 / 100) tblC3 = ["A"] := by
  have hA : DF.getCol tblC3 "A" = [996 / 1000] := by simp [DF.getCol, idxOf, tblC3]
  have hB : DF.getCol tblC3 "B" = [4 / 1000] := by simp [DF.getCol, idxOf, tblC3]
  have h1 : (1 : ℚ) / 100 < 996 / 1000 := by norm_num
  have h2 : ¬((1 : ℚ) / 100 < 4 / 1000) := by norm_num
  refine ⟨?_, by decide, ?_, ?_⟩
  · simp [projection, atlasA_queryOne_valid, capybaraPostProcess, capyFnC3]
  · rw [hB]
    simp [listMax]
    norm_num
  · have hkA : ((100 : ℚ))⁻¹ < listMax (DF.getCol tblC3 "A") := by
      rw [hA]
      simp [listMax]
      norm_num
    have hkB : ¬(((100 : ℚ))⁻¹ < listMax (DF.getCol tblC3 "B")) := by
      rw [hB]
      simp [listMax]
      norm_num
    simp only [keptColumns]
    rw [show tblC3.colIndex = ["A", "B"] from rfl]
    simp [List.filter_cons, hkA, hkB]

theorem countP_add_le_length {α : Type} (p q : α → Bool) (l : List α)
    (h : ∀ a, ¬(p a = true ∧ q a = true)) :
    l.countP p + l.countP q ≤ l.length := by
  induction l with
  | nil => simp
  | cons a t ih =>
    simp only [List.countP_cons, List.length_cons]
    by_cases hpa : p a = true
    · by_cases hqa : q a = true
      · exact absurd ⟨hpa, hqa⟩ (h a)
      · simp only [if_pos hpa, if_neg hqa]
        omega
    · by_cases hqa : q a = true
      · simp only [if_neg hpa, if_pos hqa]
        omega
      · simp only [if_neg hpa, if_neg hqa]
        omega

theorem countP_or_disjoint {α : Type} (p q : α → Bool) (l : List α)
    (h : ∀ a, ¬(p a = true ∧ q a = true)) :
    l.countP (fun a => p a || q a) = l.countP p + l.countP q := by
  induction l with
  | nil => simp
  | cons a t ih =>
    simp only [List.countP_cons, ih]
    by_cases hpa : p a = true
    · by_cases hqa : q a = true
      · exact absurd ⟨hpa, hqa⟩ (h a)
      · simp [hpa, hqa]
        omega
    · by_cases hqa : q a = true
      · simp [hpa, hqa]
        omega
      · simp [hpa, hqa]

theorem cntEQ_pos (col : List (Option ℚ)) (v : ℚ) (h : some v ∈ col) :
    1 ≤ cntEQ col v := by
  have hp : 0 < cntEQ col v := List.countP_pos_iff.mpr ⟨some v, h, by simp⟩
  omega

theorem cntNone_pos (col : List (Option ℚ)) (h : none ∈ col) : 1 ≤ cntNone col := by
  have hp : 0 < cntNone col := List.countP_pos_iff.mpr ⟨none, h, by simp⟩
  omega

theorem cntGT_add_cntEQ_le (col : List (Option ℚ)) (v : ℚ) :
    cntGT col v + cntEQ col v ≤ col.length := by
  apply countP_add_le_length
  intro o
  cases o with
  | none => simp
  | some w =>
    simp only [decide_eq_true_eq]
    rintro ⟨h1, rfl⟩
    exact lt_irrefl _ h1

theorem cntSome_add_cntNone (col : List (Option ℚ)) :
    cntSome col + cntNone col = col.length := by
  induction col with
  | nil => simp [cntSome, cntNone]
  | cons a t ih =>
    cases a <;> simp [cntSome, cntNone, List.countP_cons] at ih ⊢ <;> omega

theorem cntGT_le_of_lt (col : List (Option ℚ)) (a b : ℚ) (hab : a < b) :
    cntGT col b + cntEQ col b ≤ cntGT col a := by
  have hdis : ∀ o : Option ℚ,
      ¬(((fun o => match o with | some w => decide (b < w) | none => false) o = true) ∧
        ((fun o => match o with | some w => decide (w = b) | none => false) o = true)) := by
    intro o
    cases o with
    | none => simp
    | some w =>
      simp only [decide_eq_true_eq]
      rintro ⟨h1, rfl⟩
      exact lt_irrefl _ h1
  have heq := countP_or_disjoint _ _ col hdis
  calc cntGT col b + cntEQ col b
      = col.countP (fun o =>
          (match o with | some w => decide (b < w) | none => false) ||
          (match o with | some w => decide (w = b) | none => false)) := heq.symm
    _ ≤ col.countP (fun o => match o with | some w => decide (a < w) | none => false) := by
        apply List.countP_mono_left
        intro o ho hor
        cases o with
        | none => simp at hor
        | some w =>
          simp only [Bool.or_eq_true, decide_eq_true_eq] at hor
          simp only [decide_eq_true_eq]
          rcases hor with h1 | h1
          · exact lt_trans hab h1
          · rw [h1]
            exact hab

theorem rankDesc_bounds (col : List (Option ℚ)) (x : Option ℚ) (hx : x ∈ col) :
    1 ≤ rankDesc col x ∧ rankDesc col x ≤ (col.length : ℚ) := by
  cases x with
  | some v =>
    have h1 := cntEQ_pos col v hx
    have h2 := cntGT_add_cntEQ_le col v
    have h1q : (1 : ℚ) ≤ (cntEQ col v : ℚ) := by exact_mod_cast h1
    have h2q : (cntGT col v : ℚ) + (cntEQ col v : ℚ) ≤ (col.length : ℚ) := by
      exact_mod_cast h2
    have h0 : (0 : ℚ) ≤ (cntGT col v : ℚ) := Nat.cast_nonneg _
    constructor
    · simp only [rankDesc]
      linarith
    · simp only [rankDesc]
      linarith
  | none =>
    have h1 := cntNone_pos col hx
    have h2 := cntSome_add_cntNone col
    have h1q : (1 : ℚ) ≤ (cntNone col : ℚ) := by exact_mod_cast h1
    have h2q : (cntSome col : ℚ) + (cntNone col : ℚ) = (col.length : ℚ) := by
      exact_mod_cast h2
    have h0 : (0 : ℚ) ≤ (cntSome col : ℚ) := Nat.cast_nonneg _
    constructor
    · simp only [rankDesc]
      linarith
    · simp only [rankDesc]
      linarith

theorem rankTransformCol_getD (col : List (Option ℚ)) (k : ℕ) (hk : k < col.length) :
    (rankTransformCol col).getD k 0 =
      ((col.length : ℚ) - rankDesc col (col.getD k none) + 1) / (col.length : ℚ) := by
  unfold rankTransformCol
  rw [List.getD_eq_getElem _ _ (by simpa using hk), List.getElem_map,
    List.getD_eq_getElem _ _ hk]

/-- Claim C4 (confirmed): `rankTransform` preserves the column length, every
output value equals (N - rank_desc + 1)/N with the descending average-tie
rank (missing values ranked at the bottom), all outputs lie in (0, 1], tied
inputs receive identical outputs and a strictly larger present input receives
a strictly larger output.  The embedding is a pure function of the column, so
the input frame is unchanged by construction. -/
theorem rankTransform_spec (col : List (Option ℚ)) (i j : ℕ)
    (hi : i < col.length) (hj : j < col.length) :
    (rankTransformCol col).length = col.length ∧
    (∀ v ∈ rankTransformCol col, 0 < v ∧ v ≤ 1) ∧
    (rankTransformCol col).getD i 0 =
      ((col.length : ℚ) - rankDesc col (col.getD i none) + 1) / (col.length : ℚ) ∧
    (col.getD i none = col.getD j none →
      (rankTransformCol col).getD i 0 = (rankTransformCol col).getD j 0) ∧
    (∀ a b : ℚ, col.getD i none = some a → col.getD j none = some b → a < b →
      (rankTransformCol col).getD i 0 < (rankTransformCol col).getD j 0) := by
  have hN : (0 : ℚ) < (col.length : ℚ) := by
    have : 0 < col.length := Nat.lt_of_le_of_lt (Nat.zero_le i) hi
    exact_mod_cast this
  refine ⟨List.length_map _ _, ?_, rankTransformCol_getD col i hi, ?_, ?_⟩
  · intro v hv
    obtain ⟨x, hx, rfl⟩ := List.mem_map.mp hv
    obtain ⟨hr1, hr2⟩ := rankDesc_bounds col x hx
    constructor
    · apply div_pos _ hN
      linarith
    · rw [div_le_one hN]
      linarith
  · intro hij
    rw [rankTransformCol_getD col i hi, rankTransformCol_getD col j hj, hij]
  · intro a b hia hjb hab
    rw [rankTransformCol_getD col i hi, rankTransformCol_getD col j hj, hia, hjb]
    have hma : some a ∈ col := by
      rw [List.getD_eq_getElem _ _ hi] at hia
      rw [← hia]
      exact List.getElem_mem hi
    have hmb : some b ∈ col := by
      rw [List.getD_eq_getElem _ _ hj] at hjb
      rw [← hjb]
      exact List.getElem_mem hj
    have hea := cntEQ_pos col a hma
    have heb := cntEQ_pos col b hmb
    have hc := cntGT_le_of_lt col a b hab
    have heaq : (1 : ℚ) ≤ (cntEQ col a : ℚ) := by exact_mod_cast hea
    have hebq : (1 : ℚ) ≤ (cntEQ col b : ℚ) := by exact_mod_cast heb
    have hcq : (cntGT col b : ℚ) + (cntEQ col b : ℚ) ≤ (cntGT col a : ℚ) := by
      exact_mod_cast hc
    have hrb : rankDesc col (some b) < rankDesc col (some a) := by
      simp only [rankDesc]
      linarith
    rw [div_lt_div_iff_of_pos_right hN]
    linarith

/-- Witness for `rankTransform_spec` on the column [2, 2, 5, 10] of the spec:
the tied smallest values receive equal outputs and 10 receives a strictly
larger output than 5. -/
theorem rankTransform_spec_witness :
    ((rankTransformCol [some 2, some 2, some (5 : ℚ), some 10]).getD 0 0
      = (rankTransformCol [some 2, some 2, some (5 : ℚ), some 10]).getD 1 0) ∧
    ((rankTransformCol [some 2, some 2, some (5 : ℚ), some 10]).getD 2 0
      < (rankTransformCol [some 2, some 2, some (5 : ℚ), some 10]).getD 3 0) :=
  ⟨(rankTransform_spec [some 2, some 2, some (5 : ℚ), some 10] 0 1
      (by decide) (by decide)).2.2.2.1 rfl,
   (rankTransform_spec [some 2, some 2, some (5 : ℚ), some 10] 2 3
      (by decide) (by decide)).2.2.2.2 5 10 rfl rfl (by norm_num)⟩

theorem getD_map_idxOf {α : Type} (f : String → α) (l : List String) (g : String)
    (h : g ∈ l) (d : α) : (l.map f).getD (idxOf g l) d = f g := by
  induction l with
  | nil => cases h
  | cons a t ih =>
    by_cases hag : a = g
    · subst hag
      simp [idxOf]
    · have hgt : g ∈ t := by
        rcases List.mem_cons.mp h with h1 | h1
        · exact absurd h1.symm hag
        · exact h1
      simp only [idxOf, if_neg hag, List.map_cons, List.getD_cons_succ]
      exact ih hgt

/-- Claim C5 (confirmed): when validation passes, `Atlas.projection` reindexes
the query onto the atlas filtered gene index before any further computation:
the reindexed frame has exactly the atlas gene order (so query-only genes are
dropped), keeps the query value for genes present in the query, and fills 0
for atlas genes absent from the query, in every query column. -/
theorem reindex_aligns (A : List String) (q : DF) (g : String) (j : ℕ)
    (hg : g ∈ A) (hj : j < q.cols.length) :
    (reindexFill0 A q).rowIndex = A ∧
    (reindexFill0 A q).colIndex = q.colIndex ∧
    (g ∈ q.rowIndex → DF.entryAt (reindexFill0 A q) g j = DF.entryAt q g j) ∧
    (g ∉ q.rowIndex → DF.entryAt (reindexFill0 A q) g j = 0) := by
  have hrow : (reindexFill0 A q).rowIndex = A := rfl
  have hcol : (reindexFill0 A q).cols.getD j [] =
      A.map (fun g2 =>
        if g2 ∈ q.rowIndex then (q.cols.getD j []).getD (idxOf g2 q.rowIndex) 0 else 0) := by
    unfold reindexFill0
    rw [List.getD_eq_getElem _ _ (by simpa using hj), List.getElem_map,
      List.getD_eq_getElem _ _ hj]
  refine ⟨rfl, rfl, ?_, ?_⟩
  · intro hmem
    unfold DF.entryAt
    rw [hrow, hcol, getD_map_idxOf _ A g hg, if_pos hmem]
  · intro hnot
    unfold DF.entryAt
    rw [hrow, hcol, getD_map_idxOf _ A g hg, if_neg hnot]

/-- Witness for `reindex_aligns`: gene g1 is absent from the query and gets 0,
gene g2 keeps its query value, and the result carries the atlas gene order. -/
theorem reindex_aligns_witness :
    DF.entryAt (reindexFill0 ["g1", "g2"] (⟨["g2", "g3"], ["c"], [[7, 9]]⟩ : DF)) "g1" 0 = 0 ∧
    DF.entryAt (reindexFill0 ["g1", "g2"] (⟨["g2", "g3"], ["c"], [[7, 9]]⟩ : DF)) "g2" 0
      = DF.entryAt (⟨["g2", "g3"], ["c"], [[7, 9]]⟩ : DF) "g2" 0 ∧
    (reindexFill0 ["g1", "g2"] (⟨["g2", "g3"], ["c"], [[7, 9]]⟩ : DF)).rowIndex
      = ["g1", "g2"] :=
  ⟨(reindex_aligns ["g1", "g2"] (⟨["g2", "g3"], ["c"], [[7, 9]]⟩ : DF) "g1" 0
      (by decide) (by decide)).2.2.2 (by decide),
   (reindex_aligns ["g1", "g2"] (⟨["g2", "g3"], ["c"], [[7, 9]]⟩ : DF) "g2" 0
      (by decide) (by decide)).2.2.1 (by decide),
   (reindex_aligns ["g1", "g2"] (⟨["g2", "g3"], ["c"], [[7, 9]]⟩ : DF) "g1" 0
      (by decide) (by decide)).1⟩

/-- Claim C6 (confirmed): with includeRandomSamples disabled the projection is
a deterministic function of the atlas and the query: the randomness oracle is
never consulted, so two runs with arbitrary (different) oracles return
identical results, combined coordinates included; the embedding is fitted at
the configuration PCA(n_components=10, svd_solver=full) -- the deterministic
full SVD solver -- the query is transformed by the fitted model and the first
3 output dimensions are kept. -/
theorem projection_deterministic_without_random
    (pca : PCAFns) (rng1 rng2 : Rng) (capyFn : DF → List (String × DF))
    (atlas : AtlasData) (name : String) (query : DF) (icc icap : Bool) :
    projection pca rng1 capyFn atlas name query icc icap false
      = projection pca rng2 capyFn atlas name query icc icap false ∧
    (projectionErrorMsg atlas query = "" →
      (projection pca rng1 capyFn atlas name query false icap false).coords.cols
        = (pca.transform projectionPCAConfig atlas.expr.cols
            (rankTransformDF (reindexFill0 atlas.expr.rowIndex query)).cols).take 3) ∧
    projectionPCAConfig = ⟨10, SvdSolver.full⟩ := by
  refine ⟨rfl, ?_, rfl⟩
  intro herr
  simp [projection, herr]

/-- Witness for `projection_deterministic_without_random` at the one-gene
atlas and query. -/
theorem projection_deterministic_witness :
    (projection pca0 rng0 capyFn0 atlasA "w" queryOne false false false).coords.cols
      = (pca0.transform projectionPCAConfig atlasA.expr.cols
          (rankTransformDF (reindexFill0 atlasA.expr.rowIndex queryOne)).cols).take 3 :=
  (projection_deterministic_without_random pca0 rng0 rng0 capyFn0 atlasA "w" queryOne
    false false).2.1 atlasA_queryOne_valid

/-- Claim C10 (confirmed): the includeCombinedCoords option changes the index
of the coords field itself: the mutation of the projected block index in the
source acts on the object stored under result coords, so with the option on
the coords row identifiers are the prefixed name_sampleId strings, while with
the option off they are the raw query sample identifiers; the coordinate
values are identical in both runs. -/
theorem coords_index_prefixed_when_combined
    (pca : PCAFns) (rng : Rng) (capyFn : DF → List (String × DF))
    (atlas : AtlasData) (name : String) (query : DF) (icap : Bool)
    (herr : projectionErrorMsg atlas query = "") :
    (projection pca rng capyFn atlas name query true icap false).coords.rowIndex
      = (projection pca rng capyFn atlas name query false icap false).coords.rowIndex.map
          (fun s => name ++ "_" ++ s) ∧
    (projection pca rng capyFn atlas name query true icap false).coords.cols
      = (projection pca rng capyFn atlas name query false icap false).coords.cols ∧
    (projection pca rng capyFn atlas name query false icap false).coords.rowIndex
      = query.colIndex := by
  refine ⟨?_, ?_, ?_⟩ <;> simp [projection, herr, rankTransformDF, reindexFill0]

/-- Witness for `coords_index_prefixed_when_combined` at the one-gene atlas:
the coords index is [t_q1] with combined coordinates and [q1] without. -/
theorem coords_index_prefixed_witness :
    (projection pca0 rng0 capyFn0 atlasA "t" queryOne true false false).coords.rowIndex
      = ["t_q1"] ∧
    (projection pca0 rng0 capyFn0 atlasA "t" queryOne false false false).coords.rowIndex
      = ["q1"] := by
  have h := coords_index_prefixed_when_combined pca0 rng0 capyFn0 atlasA "t" queryOne
    false atlasA_queryOne_valid
  constructor
  · rw [h.1, h.2.2]
    decide
  · rw [h.2.2]
    rfl

theorem atlasB_queryOne_valid : projectionErrorMsg atlasB queryOne = "" := by
  simp [projectionErrorMsg, commonGenes, uniqueInOrder, inclusionCount, atlasB, queryOne]
  intro h
  norm_num at h

theorem atlasW_queryOne_valid : projectionErrorMsg atlasW queryOne = "" := by
  simp [projectionErrorMsg, commonGenes, uniqueInOrder, inclusionCount, atlasW, queryOne]
  intro h
  norm_num at h

/-- Claim C8 as stated is false on the code: with the alphanumeric name t, the
prefixed query identifier t_q1 collides with the atlas sample identifier t_q1
(atlas sample ids contain underscores by construction, datasetId_sampleId),
so the combined coordinate table carries a duplicated row identifier. -/
theorem combined_ids_collide :
    ("t".toList.all (fun ch => ch.isAlphanum || ch == '_')) = true ∧
    (projection pca0 rng0 capyFn0 atlasB "t" queryOne true false false).combinedCoords.rowIndex
      = ["t_q1", "t_q1"] ∧
    "t_q1" ∈ atlasB.expr.colIndex ∧
    ¬(projection pca0 rng0 capyFn0 atlasB "t" queryOne
        true false false).combinedCoords.rowIndex.Nodup := by
  have hrow : (projection pca0 rng0 capyFn0 atlasB "t" queryOne
      true false false).combinedCoords.rowIndex = ["t_q1", "t_q1"] := by
    simp [projection, atlasB_queryOne_valid, DF.concatRows, rankTransformDF,
      reindexFill0]
    decide
  refine ⟨by decide, hrow, by decide, ?_⟩
  rw [hrow]
  decide

theorem projection_combined_structure
    (pca : PCAFns) (rng : Rng) (capyFn : DF → List (String × DF))
    (atlas : AtlasData) (name : String) (query : DF) (icap irs : Bool)
    (herr : projectionErrorMsg atlas query = "") :
    (projection pca rng capyFn atlas name query true icap irs).combinedCoords.rowIndex
      = atlas.expr.colIndex
        ++ (projection pca rng capyFn atlas name query true icap irs).coords.rowIndex ∧
    ∀ id ∈ (projection pca rng capyFn atlas name query true icap irs).coords.rowIndex,
      ∃ s, id = name ++ "_" ++ s := by
  constructor
  · simp [projection, herr, DF.concatRows]
  · intro id hid
    simp [projection, herr] at hid
    obtain ⟨s, -, h⟩ := hid
    exact ⟨s, h.symm⟩

/-- Claim C8 (amended): when includeCombinedCoords is set and validation has
passed, the combined table is the atlas sample block followed by the
prefixed projected block, and no projected row identifier equals an atlas
sample identifier PROVIDED no atlas sample identifier is itself of the form
name_s for some string s.  Without that proviso collisions occur even for
purely alphanumeric names, since atlas sample ids contain underscores. -/
theorem combined_ids_disjoint
    (pca : PCAFns) (rng : Rng) (capyFn : DF → List (String × DF))
    (atlas : AtlasData) (name : String) (query : DF) (icap irs : Bool)
    (herr : projectionErrorMsg atlas query = "")
    (hfree : ∀ s : String, (name ++ "_" ++ s) ∉ atlas.expr.colIndex) :
    (projection pca rng capyFn atlas name query true icap irs).combinedCoords.rowIndex
      = atlas.expr.colIndex
        ++ (projection pca rng capyFn atlas name query true icap irs).coords.rowIndex ∧
    ∀ id ∈ (projection pca rng capyFn atlas name query true icap irs).coords.rowIndex,
      id ∉ atlas.expr.colIndex := by
  obtain ⟨h1, h2⟩ := projection_combined_structure pca rng capyFn atlas name query
    icap irs herr
  refine ⟨h1, ?_⟩
  intro id hid
  obtain ⟨s, rfl⟩ := h2 id hid
  exact hfree s

/-- Witness for `combined_ids_disjoint` on an atlas whose sample identifier a
cannot be of the form t_s. -/
theorem combined_ids_disjoint_witness :
    (projection pca0 rng0 capyFn0 atlasW "t" queryOne true false false).combinedCoords.rowIndex
      = atlasW.expr.colIndex
        ++ (projection pca0 rng0 capyFn0 atlasW "t" queryOne true false false).coords.rowIndex ∧
    ∀ id ∈ (projection pca0 rng0 capyFn0 atlasW "t" queryOne true false false).coords.rowIndex,
      id ∉ atlasW.expr.colIndex := by
  apply combined_ids_disjoint pca0 rng0 capyFn0 atlasW "t" queryOne false false
    atlasW_queryOne_valid
  intro s hs
  simp [atlasW] at hs
  have hlen := congrArg String.length hs
  rw [String.length_append] at hlen
  have e1 : "t_".length = 2 := rfl
  have e3 : "a".length = 1 := rfl
  rw [e1, e3] at hlen
  omega

theorem idxOf_lt_length (c : String) (l : List String) (h : c ∈ l) :
    idxOf c l < l.length := by
  induction l with
  | nil => cases h
  | cons a t ih =>
    by_cases hac : a = c
    · simp [idxOf, hac]
    · have hct : c ∈ t := by
        rcases List.mem_cons.mp h with h1 | h1
        · exact absurd h1.symm hac
        · exact h1
      simp only [idxOf, if_neg hac, List.length_cons]
      exact Nat.succ_lt_succ (ih hct)

theorem idxOf_append_of_mem (c : String) (l l2 : List String) (h : c ∈ l) :
    idxOf c (l ++ l2) = idxOf c l := by
  induction l with
  | nil => cases h
  | cons a t ih =>
    by_cases hac : a = c
    · simp [idxOf, hac]
    · have hct : c ∈ t := by
        rcases List.mem_cons.mp h with h1 | h1
        · exact absurd h1.symm hac
        · exact h1
      simp only [List.cons_append, idxOf, if_neg hac]
      rw [show t.append l2 = t ++ l2 from rfl, ih hct]

theorem idxOf_append_self (c : String) (l : List String) (h : c ∉ l) :
    idxOf c (l ++ [c]) = l.length := by
  induction l with
  | nil => simp [idxOf]
  | cons a t ih =>
    have hac : ¬a = c := fun he => h (he ▸ List.mem_cons_self a t)
    have hct : c ∉ t := fun hc => h (List.mem_cons_of_mem a hc)
    simp only [List.cons_append, idxOf, if_neg hac, List.length_cons]
    rw [show t.append [c] = t ++ [c] from rfl, ih hct]

theorem setCol_fresh (df : DF) (c : String) (v : List ℚ) (hc : c ∉ df.colIndex) :
    DF.setCol df c v = ⟨df.rowIndex, df.colIndex ++ [c], df.cols ++ [v]⟩ := by
  unfold DF.setCol
  rw [if_neg hc]

theorem getCol_setCol_fresh (df : DF) (c : String) (v : List ℚ)
    (hc : c ∉ df.colIndex) (hlen : df.cols.length = df.colIndex.length) :
    DF.getCol (DF.setCol df c v) c = v := by
  rw [setCol_fresh df c v hc]
  unfold DF.getCol
  have hpos : idxOf c (df.colIndex ++ [c]) = df.cols.length := by
    rw [idxOf_append_self c _ hc, hlen]
  rw [hpos, List.getD_append_right _ _ _ _ (le_refl _)]
  simp

theorem getCol_setCol_other (df : DF) (c c2 : String) (v : List ℚ)
    (hc : c ∉ df.colIndex) (h2 : c2 ∈ df.colIndex)
    (hlen : df.cols.length = df.colIndex.length) :
    DF.getCol (DF.setCol df c v) c2 = DF.getCol df c2 := by
  rw [setCol_fresh df c v hc]
  unfold DF.getCol
  rw [idxOf_append_of_mem c2 _ _ h2]
  exact List.getD_append _ _ _ _ (by rw [hlen]; exact idxOf_lt_length c2 _ h2)

theorem randName_injOn : ∀ m, m < 3 → ∀ n, n < 3 → randName m = randName n → m = n := by
  decide

theorem addRandom_fold (rng : Rng) (chosen : List String) :
    ∀ (k : ℕ) (df : DF), df.cols.length = df.colIndex.length →
    (∀ x ∈ chosen, x ∈ df.colIndex) →
    k + chosen.length ≤ 3 →
    (∀ m, k ≤ m → m < k + chosen.length → randName m ∉ df.colIndex) →
    ((chosen.enumFrom k).foldl
        (fun d p => DF.setCol d (randName p.1) (rng.shuffle p.1 (DF.getCol d p.2))) df).colIndex
      = df.colIndex ++ (List.range chosen.length).map (fun t => randName (k + t)) ∧
    (∀ c ∈ df.colIndex,
      DF.getCol ((chosen.enumFrom k).foldl
        (fun d p => DF.setCol d (randName p.1) (rng.shuffle p.1 (DF.getCol d p.2))) df) c
        = DF.getCol df c) ∧
    (∀ t, t < chosen.length →
      DF.getCol ((chosen.enumFrom k).foldl
        (fun d p => DF.setCol d (randName p.1) (rng.shuffle p.1 (DF.getCol d p.2))) df)
        (randName (k + t))
        = rng.shuffle (k + t) (DF.getCol df (chosen.getD t ""))) := by
  induction chosen with
  | nil =>
    intro k df _ _ _ _
    refine ⟨by simp, fun c _ => rfl, fun t ht => absurd ht (by simp)⟩
  | cons a rest ih =>
    intro k df hlen hsub hb hfresh
    have hfk : randName k ∉ df.colIndex :=
      hfresh k (le_refl k) (by simp only [List.length_cons]; omega)
    have hset := setCol_fresh df (randName k) (rng.shuffle k (DF.getCol df a)) hfk
    have hcolI1 : (DF.setCol df (randName k) (rng.shuffle k (DF.getCol df a))).colIndex
        = df.colIndex ++ [randName k] := by rw [hset]
    have hlen1 : (DF.setCol df (randName k) (rng.shuffle k (DF.getCol df a))).cols.length
        = (DF.setCol df (randName k) (rng.shuffle k (DF.getCol df a))).colIndex.length := by
      rw [hset]
      simp [hlen]
    have hsub1 : ∀ x ∈ rest,
        x ∈ (DF.setCol df (randName k) (rng.shuffle k (DF.getCol df a))).colIndex := by
      intro x hx
      rw [hcolI1]
      exact List.mem_append_left _ (hsub x (List.mem_cons_of_mem a hx))
    have hb1 : (k + 1) + rest.length ≤ 3 := by
      simp only [List.length_cons] at hb
      omega
    have hfresh1 : ∀ m, k + 1 ≤ m → m < (k + 1) + rest.length →
        randName m ∉ (DF.setCol df (randName k) (rng.shuffle k (DF.getCol df a))).colIndex := by
      intro m hm1 hm2
      rw [hcolI1]
      intro hmem
      rcases List.mem_append.mp hmem with hmm | hmm
      · exact hfresh m (by omega) (by simp only [List.length_cons]; omega) hmm
      · have heq : randName m = randName k := by simpa using hmm
        have := randName_injOn m (by omega) k (by omega) heq
        omega
    obtain ⟨ih1, ih2, ih3⟩ := ih (k + 1)
      (DF.setCol df (randName k) (rng.shuffle k (DF.getCol df a))) hlen1 hsub1 hb1 hfresh1
    have hstep : ((a :: rest).enumFrom k).foldl
        (fun d p => DF.setCol d (randName p.1) (rng.shuffle p.1 (DF.getCol d p.2))) df
      = (rest.enumFrom (k + 1)).foldl
        (fun d p => DF.setCol d (randName p.1) (rng.shuffle p.1 (DF.getCol d p.2)))
        (DF.setCol df (randName k) (rng.shuffle k (DF.getCol df a))) := rfl
    refine ⟨?_, ?_, ?_⟩
    · rw [hstep, ih1, hcolI1, List.append_assoc]
      congr 1
      simp only [List.length_cons]
      rw [List.range_succ_eq_map]
      simp only [List.map_cons, List.map_map, List.singleton_append, Nat.add_zero]
      congr 1
      apply List.map_congr_left
      intro t _
      simp only [Function.comp_apply]
      congr 1
      omega
    · intro c hc
      rw [hstep, ih2 c (by rw [hcolI1]; exact List.mem_append_left _ hc)]
      exact getCol_setCol_other df (randName k) c _ hfk hc hlen
    · intro t ht
      match t with
      | 0 =>
        rw [hstep]
        simp only [Nat.add_zero]
        have hmem : randName k
            ∈ (DF.setCol df (randName k) (rng.shuffle k (DF.getCol df a))).colIndex := by
          rw [hcolI1]
          exact List.mem_append_right _ (List.mem_singleton.mpr rfl)
        rw [ih2 (randName k) hmem]
        rw [getCol_setCol_fresh df (randName k) _ hfk hlen]
        rfl
      | Nat.succ s =>
        have hs : s < rest.length := by
          simp only [List.length_cons] at ht
          omega
        have h3 := ih3 s hs
        rw [hstep]
        have harg : k + (s + 1) = (k + 1) + s := by omega
        rw [harg, h3]
        have hgm : rest.getD s "" ∈ df.colIndex := by
          apply hsub
          exact List.mem_cons_of_mem a
            (by rw [List.getD_eq_getElem _ _ hs]; exact List.getElem_mem hs)
        rw [getCol_setCol_other df (randName k) (rest.getD s "") _ hfk hgm hlen]
        rfl

/-- Claim C7 (amended): when validation passes and NONE of the query column
names is itself of the reserved form random_i, enabling includeRandomSamples
appends exactly min(3, c) extra columns (named random_0, random_1, random_2),
all of which appear as rows of the output coordinate table after the real
query columns, and each extra column holds a permutation (same multiset) of
one of the real rank-transformed query columns.  Without the name proviso an
existing column named random_i is OVERWRITTEN instead of appended and fewer
extra columns appear.  The hypotheses on the randomness oracle are the
guarantees of random.sample: the chosen columns are members of the population
with the requested count, and each shuffle is a permutation. -/
theorem random_columns_appended
    (pca : PCAFns) (rng : Rng) (capyFn : DF → List (String × DF))
    (atlas : AtlasData) (name : String) (query : DF) (icap : Bool)
    (herr : projectionErrorMsg atlas query = "")
    (hq : query.cols.length = query.colIndex.length)
    (hclen : (rng.sampleCols query.colIndex (min 3 query.colIndex.length)).length
      = min 3 query.colIndex.length)
    (hcsub : ∀ x ∈ rng.sampleCols query.colIndex (min 3 query.colIndex.length),
      x ∈ query.colIndex)
    (hfresh : ∀ m, m < 3 → randName m ∉ query.colIndex)
    (hperm : ∀ i l, List.Perm (rng.shuffle i l) l) :
    (projection pca rng capyFn atlas name query false icap true).coords.rowIndex
      = query.colIndex ++ (List.range (min 3 query.colIndex.length)).map randName ∧
    (projection pca rng capyFn atlas name query false icap true).coords.rowIndex.length
      = query.colIndex.length + min 3 query.colIndex.length ∧
    (∀ t, t < min 3 query.colIndex.length →
      ∃ col ∈ query.colIndex,
        List.Perm
          (DF.getCol
            (addRandomCols rng (rankTransformDF (reindexFill0 atlas.expr.rowIndex query)))
            (randName t))
          (DF.getCol (rankTransformDF (reindexFill0 atlas.expr.rowIndex query)) col)) := by
  have hcolI : (rankTransformDF (reindexFill0 atlas.expr.rowIndex query)).colIndex
      = query.colIndex := rfl
  have hdlen : (rankTransformDF (reindexFill0 atlas.expr.rowIndex query)).cols.length
      = (rankTransformDF (reindexFill0 atlas.expr.rowIndex query)).colIndex.length := by
    simp [rankTransformDF, reindexFill0, hq]
  have hn2 : (if 2 < query.colIndex.length then 3 else query.colIndex.length)
      = min 3 query.colIndex.length := by
    split_ifs with h <;> omega
  obtain ⟨kcol, kpres, krand⟩ := addRandom_fold rng
    (rng.sampleCols query.colIndex (min 3 query.colIndex.length)) 0
    (rankTransformDF (reindexFill0 atlas.expr.rowIndex query))
    hdlen
    (by
      intro x hx
      rw [hcolI]
      exact hcsub x hx)
    (by
      rw [hclen]
      omega)
    (by
      intro m hm0 hmlt
      rw [hcolI]
      apply hfresh
      rw [hclen] at hmlt
      omega)
  have haddr : addRandomCols rng (rankTransformDF (reindexFill0 atlas.expr.rowIndex query))
      = ((rng.sampleCols query.colIndex (min 3 query.colIndex.length)).enumFrom 0).foldl
          (fun d p => DF.setCol d (randName p.1) (rng.shuffle p.1 (DF.getCol d p.2)))
          (rankTransformDF (reindexFill0 atlas.expr.rowIndex query)) := by
    simp only [addRandomCols, List.enum, hcolI, hn2]
  have hrowI : (projection pca rng capyFn atlas name query false icap true).coords.rowIndex
      = (addRandomCols rng (rankTransformDF (reindexFill0 atlas.expr.rowIndex query))).colIndex := by
    simp [projection, herr]
  refine ⟨?_, ?_, ?_⟩
  · rw [hrowI, haddr, kcol, hclen, hcolI]
    simp only [Nat.zero_add]
  · rw [hrowI, haddr, kcol, hclen, hcolI]
    simp [List.length_append, List.length_map, List.length_range]
  · intro t ht
    have ht2 : t < (rng.sampleCols query.colIndex (min 3 query.colIndex.length)).length := by
      rw [hclen]
      exact ht
    have h3 := krand t ht2
    simp only [Nat.zero_add] at h3
    refine ⟨(rng.sampleCols query.colIndex (min 3 query.colIndex.length)).getD t "", ?_, ?_⟩
    · apply hcsub
      rw [List.getD_eq_getElem _ _ ht2]
      exact List.getElem_mem ht2
    · rw [haddr, h3]
      exact hperm t _

/-- Witness for `random_columns_appended` on the one-column query: the output
coordinate table lists the real column q1 followed by random_0. -/
theorem random_columns_appended_witness :
    (projection pca0 rng0 capyFn0 atlasA "w" queryOne false false true).coords.rowIndex
      = queryOne.colIndex ++ (List.range (min 3 queryOne.colIndex.length)).map randName ∧
    (projection pca0 rng0 capyFn0 atlasA "w" queryOne false false true).coords.rowIndex.length
      = queryOne.colIndex.length + min 3 queryOne.colIndex.length := by
  have h := random_columns_appended pca0 rng0 capyFn0 atlasA "w" queryOne false
    atlasA_queryOne_valid rfl (by decide) (by decide) (by decide)
    (fun _ l => List.Perm.refl l)
  exact ⟨h.1, h.2.1⟩

/-- Claim C7 as stated is false on the code: a query containing a column
already named random_0 has that column OVERWRITTEN by the first generated
random column, so only one extra column appears instead of min(3, 2) = 2:
the output coordinate table has 3 rows, not 2 + 2 = 4. -/
theorem random_columns_name_collision :
    "random_0" ∈ queryCollide.colIndex ∧
    (projection pca0 rng0 capyFn0 atlasA "t" queryCollide false false true).coords.rowIndex
      = ["random_0", "s1", "random_1"] ∧
    (projection pca0 rng0 capyFn0 atlasA "t" queryCollide
        false false true).coords.rowIndex.length = 3 ∧
    queryCollide.colIndex.length + min 3 queryCollide.colIndex.length = 4 := by
  have hv : projectionErrorMsg atlasA queryCollide = "" := by
    simp [projectionErrorMsg, commonGenes, uniqueInOrder, inclusionCount, atlasA, queryCollide]
    intro h
    norm_num at h
  have r0 : randName 0 = "random_0" := by decide
  have r1 : randName 1 = "random_1" := by decide
  have hrow : (projection pca0 rng0 capyFn0 atlasA "t" queryCollide
      false false true).coords.rowIndex = ["random_0", "s1", "random_1"] := by
    simp only [projection]
    rw [if_neg (by simp [hv])]
    simp [addRandomCols, rng0, DF.setCol, DF.getCol, idxOf, rankTransformDF,
      reindexFill0, List.enum, List.enumFrom, atlasA, queryCollide, r0, r1]
  refine ⟨by decide, hrow, ?_, by decide⟩
  rw [hrow]
  rfl

theorem mem_uniqueInOrder_aux (l : List String) :
    ∀ (acc : List String) (a : String),
      (a ∈ l.foldl (fun acc2 b => if b ∈ acc2 then acc2 else acc2 ++ [b]) acc) ↔
        (a ∈ acc ∨ a ∈ l) := by
  induction l with
  | nil =>
    intro acc a
    simp
  | cons b t ih =>
    intro acc a
    simp only [List.foldl_cons]
    by_cases hb : b ∈ acc
    · rw [if_pos hb, ih]
      constructor
      · rintro (h | h)
        · exact Or.inl h
        · exact Or.inr (List.mem_cons_of_mem b h)
      · rintro (h | h)
        · exact Or.inl h
        · rcases List.mem_cons.mp h with h1 | h1
          · exact Or.inl (h1 ▸ hb)
          · exact Or.inr h1
    · rw [if_neg hb, ih]
      simp only [List.mem_append, List.mem_singleton, List.mem_cons]
      tauto

theorem mem_uniqueInOrder (l : List String) (a : String) :
    a ∈ uniqueInOrder l ↔ a ∈ l := by
  unfold uniqueInOrder
  rw [mem_uniqueInOrder_aux l [] a]
  simp

/-- Claim C9 as stated is false on the code: requesting the included gene
ENSG1 and the known-but-not-included gene ENSG2 reports ENSG2 in the
unfiltered set, yet the returned data frame has a row only for ENSG1 -- no
fallback to the unfiltered expression matrix happens.  Moreover, with a
single sample column the function returns only the not-enough-samples error
dictionary and reports none of the three sets. -/
theorem heatmap_unfiltered_gene_has_no_row :
    heatmapData (fun _ => []) id atlasH0 ["ENSG1", "ENSG2"] false none none "" "zscore"
      = HeatmapResult.okRes ["ENSG1"] ["ENSG2"] [] ["A"]
          (⟨["ENSG1"], ["s1", "s2"], [[1], [2]]⟩ : DF) ∧
    "ENSG2" ∈ heatmapUnfiltered atlasH0 ["ENSG1", "ENSG2"] ∧
    ¬"ENSG2" ∈ (⟨["ENSG1"], ["s1", "s2"], [[1], [2]]⟩ : DF).rowIndex ∧
    heatmapData (fun _ => []) id atlasH1 ["ENSG1", "ENSG2"] false none none "" "zscore"
      = HeatmapResult.errRes "Not enough samples to render a heatmap." := by
  have hsw : startsWithENS "ENSG1" = true := by decide
  refine ⟨?_, ?_, by decide, ?_⟩
  · simp [heatmapData, heatmapFiltered, heatmapUnfiltered, heatmapNotFound,
      heatmapGeneIds, inclusionIds, exclusionIds, uniqueInOrder, DF.selectRows,
      idxOf, applyRows, DF.row, DF.getCol, symbolOf, atlasH0, List.range_succ,
      hsw, List.find?]
  · simp [heatmapUnfiltered, heatmapGeneIds, exclusionIds, uniqueInOrder, atlasH0, hsw]
  · simp [heatmapData, heatmapFiltered, heatmapGeneIds, inclusionIds, uniqueInOrder,
      DF.selectRows, idxOf, atlasH1, hsw]

/-- Claim C9 (amended): for every non-empty requested Ensembl gene list, with
default options, more than one sample column, no column named zscore and a
well formed gene table, `Atlas.heatmapData` reports the three requested-gene
sets filtered / unfiltered / notFound, and the returned data frame's rows are
EXACTLY the filtered-included requested genes: genes reported in the
unfiltered set contribute no rows, because only the filtered expression
matrix is subset -- there is no fallback to the unfiltered matrix. -/
theorem heatmapData_reports_partition
    (hcl : DF → List String) (zfn : List ℚ → List ℚ) (atlas : HeatmapAtlas)
    (geneIds0 : List String)
    (hne : ¬geneIds0.length = 0)
    (hsub : ∀ g ∈ inclusionIds atlas.geneInfo, g ∈ atlas.expr.rowIndex)
    (hcols : 1 < atlas.expr.colIndex.length)
    (hz : ¬"zscore" ∈ atlas.expr.colIndex)
    (hnodup : (atlas.geneInfo.map Prod.fst).Nodup) :
    heatmapData hcl zfn atlas geneIds0 false none none "" "zscore"
      = HeatmapResult.okRes (heatmapFiltered atlas geneIds0)
          (heatmapUnfiltered atlas geneIds0) (heatmapNotFound atlas geneIds0)
          ((heatmapFiltered atlas geneIds0).map (fun g => symbolOf atlas.geneInfo g))
          (applyRows zfn (DF.selectRows (heatmapFiltered atlas geneIds0) atlas.expr)) ∧
    (applyRows zfn (DF.selectRows (heatmapFiltered atlas geneIds0) atlas.expr)).rowIndex
      = heatmapFiltered atlas geneIds0 ∧
    (∀ g ∈ heatmapUnfiltered atlas geneIds0,
      ¬g ∈ (applyRows zfn
        (DF.selectRows (heatmapFiltered atlas geneIds0) atlas.expr)).rowIndex) := by
  have hfsub : ∀ g ∈ heatmapFiltered atlas geneIds0, g ∈ atlas.expr.rowIndex := by
    intro g hg
    unfold heatmapFiltered at hg
    rw [mem_uniqueInOrder] at hg
    exact hsub g (of_decide_eq_true (List.mem_filter.mp hg).2)
  have hrowIdx : (applyRows zfn
      (DF.selectRows (heatmapFiltered atlas geneIds0) atlas.expr)).rowIndex
      = heatmapFiltered atlas geneIds0 := by
    show (heatmapFiltered atlas geneIds0).filter
      (fun g => g ∈ atlas.expr.rowIndex) = heatmapFiltered atlas geneIds0
    exact List.filter_eq_self.mpr (fun g hg => decide_eq_true (hfsub g hg))
  have h2 : ¬((DF.selectRows (heatmapFiltered atlas geneIds0) atlas.expr).colIndex.length ≤ 1) := by
    show ¬(atlas.expr.colIndex.length ≤ 1)
    omega
  have h3 : ¬(("zscore" : String) = "rowAverage") := by decide
  have h4 : ¬("zscore" ∈ (applyRows zfn
      (DF.selectRows (heatmapFiltered atlas geneIds0) atlas.expr)).colIndex) := by
    show ¬("zscore" ∈ atlas.expr.colIndex)
    exact hz
  refine ⟨?_, hrowIdx, ?_⟩
  · simp only [heatmapData]
    rw [if_neg hne, if_neg h2, if_neg h3]
    simp only [if_true, Bool.false_eq_true, if_false]
    rw [if_neg h4, hrowIdx]
  · intro g hg
    rw [hrowIdx]
    intro hgf
    unfold heatmapFiltered at hgf
    unfold heatmapUnfiltered at hg
    rw [mem_uniqueInOrder] at hgf hg
    have hin : g ∈ inclusionIds atlas.geneInfo :=
      of_decide_eq_true (List.mem_filter.mp hgf).2
    have hex : g ∈ exclusionIds atlas.geneInfo :=
      of_decide_eq_true (List.mem_filter.mp hg).2
    unfold inclusionIds at hin
    unfold exclusionIds at hex
    obtain ⟨p1, hp1, hp1e⟩ := List.mem_map.mp hin
    obtain ⟨p2, hp2, hp2e⟩ := List.mem_map.mp hex
    have hp1m : p1 ∈ atlas.geneInfo := List.mem_of_mem_filter hp1
    have hp2m : p2 ∈ atlas.geneInfo := List.mem_of_mem_filter hp2
    have hpe : p1 = p2 := List.inj_on_of_nodup_map hnodup hp1m hp2m
      (by rw [hp1e, hp2e])
    have hb1 := List.of_mem_filter hp1
    have hb2 := List.of_mem_filter hp2
    rw [hpe] at hb1
    simp_all

/-- Witness for `heatmapData_reports_partition` at the two-gene atlas. -/
theorem heatmapData_reports_partition_witness :
    heatmapData (fun _ => []) id atlasH0 ["ENSG1", "ENSG2"] false none none "" "zscore"
      = HeatmapResult.okRes (heatmapFiltered atlasH0 ["ENSG1", "ENSG2"])
          (heatmapUnfiltered atlasH0 ["ENSG1", "ENSG2"])
          (heatmapNotFound atlasH0 ["ENSG1", "ENSG2"])
          ((heatmapFiltered atlasH0 ["ENSG1", "ENSG2"]).map
            (fun g => symbolOf atlasH0.geneInfo g))
          (applyRows id
            (DF.selectRows (heatmapFiltered atlasH0 ["ENSG1", "ENSG2"]) atlasH0.expr)) :=
  (heatmapData_reports_partition (fun _ => []) id atlasH0 ["ENSG1", "ENSG2"]
    (by decide) (by decide) (by decide) (by decide) (by decide)).1
